import Mathlib

/-!
Verification of the libxposed-example native module (demo.cpp, native_api.hpp).

The module is a consumer of an external hooking engine: it receives a
capability table holding a hook function pointer and an unhook function
pointer, installs three hooks (on target_fun, fopen and JNI FindClass), and
registers a library-load callback.  We embed:

* the C-string primitives the replacement functions use (strstr, strcmp,
  std::string::ends_with), over `List Char`;
* the three replacement functions fake, fake_fopen and fake_FindClass, with
  the saved backup pointer passed explicitly;
* a trace model of the three entry points native_init, JNI_OnLoad and
  on_library_loaded, recording every call made through the hook function
  pointer together with the pointer value used;
* the hooking engine itself, which is not part of the repository, modelled
  from the spec: a byte-level patcher with a registry, and a behavioural
  model for call-through-target semantics.
-/

/-- Boolean test that `needle` occurs at the start of `hay`. -/
def startsWithB : List Char → List Char → Bool
  | [], _ => true
  | _ :: _, [] => false
  | a :: as, b :: bs => a == b && startsWithB as bs

/-- Embeds the truth value of C `strstr(hay, needle)` (null vs non-null):
whether `needle` occurs as a contiguous substring of `hay`. -/
def strstrB (needle : List Char) : List Char → Bool
  | [] => startsWithB needle []
  | c :: rest => startsWithB needle (c :: rest) || strstrB needle rest

/-- Embeds C `strcmp`: `0` iff the two strings are byte-for-byte equal,
otherwise the sign of the first differing byte. -/
def strcmp : List Char → List Char → Int
  | [], [] => 0
  | [], _ :: _ => -1
  | _ :: _, [] => 1
  | a :: as, b :: bs =>
    if a = b then strcmp as bs else if a.toNat < b.toNat then -1 else 1

/-- Embeds `std::string::ends_with needle`: whether `hay` ends with `needle`. -/
def endsWithB (needle hay : List Char) : Bool :=
  startsWithB needle.reverse hay.reverse

theorem startsWithB_iff (needle hay : List Char) :
    startsWithB needle hay = true ↔ ∃ t, hay = needle ++ t := by
  induction needle generalizing hay with
  | nil => simp [startsWithB]
  | cons a as ih =>
    cases hay with
    | nil =>
      simp [startsWithB]
    | cons b bs =>
      simp only [startsWithB, Bool.and_eq_true, beq_iff_eq, ih]
      constructor
      · rintro ⟨rfl, t, rfl⟩
        exact ⟨t, rfl⟩
      · rintro ⟨t, ht⟩
        cases ht
        exact ⟨rfl, t, rfl⟩

theorem strstrB_iff (needle hay : List Char) :
    strstrB needle hay = true ↔ ∃ l r, hay = l ++ needle ++ r := by
  induction hay with
  | nil =>
    simp only [strstrB, startsWithB_iff]
    constructor
    · rintro ⟨t, ht⟩
      exact ⟨[], t, by simpa using ht⟩
    · rintro ⟨l, r, h⟩
      rcases List.append_eq_nil.mp h.symm with ⟨h1, h2⟩
      rcases List.append_eq_nil.mp h1 with ⟨h3, h4⟩
      exact ⟨[], by simp [h4, h2]⟩
  | cons c rest ih =>
    simp only [strstrB, Bool.or_eq_true, startsWithB_iff, ih]
    constructor
    · rintro (⟨t, ht⟩ | ⟨l, r, h⟩)
      · exact ⟨[], t, by simpa using ht⟩
      · exact ⟨c :: l, r, by simp [h]⟩
    · rintro ⟨l, r, h⟩
      cases l with
      | nil => exact Or.inl ⟨r, by simpa using h⟩
      | cons x xs =>
        rcases List.cons_eq_cons.mp h with ⟨rfl, h2⟩
        exact Or.inr ⟨xs, r, by simpa using h2⟩

theorem strcmp_eq_zero_iff (a b : List Char) : strcmp a b = 0 ↔ a = b := by
  induction a generalizing b with
  | nil => cases b <;> simp [strcmp]
  | cons x xs ih =>
    cases b with
    | nil => simp [strcmp]
    | cons y ys =>
      simp only [strcmp]
      by_cases hxy : x = y
      · subst hxy
        simp [ih]
      · simp only [if_neg hxy]
        constructor
        · intro h
          split at h <;> simp at h
        · intro h
          exact absurd (List.cons_eq_cons.mp h).1 hxy

theorem endsWithB_iff (needle hay : List Char) :
    endsWithB needle hay = true ↔ ∃ l, hay = l ++ needle := by
  simp only [endsWithB, startsWithB_iff]
  constructor
  · rintro ⟨t, ht⟩
    refine ⟨t.reverse, ?_⟩
    have := congrArg List.reverse ht
    simpa using this
  · rintro ⟨l, rfl⟩
    exact ⟨l.reverse, by simp⟩

/-- Embeds `fake` from demo.cpp: calls the original through the backup
trampoline pointer and returns its value plus one.  The value returned by the
backup call is passed explicitly. -/
def fake (backup : Int) : Int :=
  backup + 1

/-- Embeds `fake_fopen` from demo.cpp.  `FILE*` results are `Option Nat`
(`none` models a null pointer); the saved global `backup_fopen` pointer is
passed explicitly.  Returns null when the filename contains the substring
"banned", otherwise delegates to the original fopen. -/
def fake_fopen (backup_fopen : List Char → List Char → Option Nat)
    (filename mode : List Char) : Option Nat :=
  if strstrB ("banned".data) filename then none
  else backup_fopen filename mode

/-- Embeds `fake_FindClass` from demo.cpp.  `jclass` results are `Option Nat`
(`none` models a null class) and `JNIEnv*` is an opaque `Nat`; the saved
global `backup_FindClass` pointer is passed explicitly.  Blocks exactly the
class "dalvik/system/BaseDexClassLoader" (strcmp equality), otherwise
delegates to the original FindClass. -/
def fake_FindClass (backup_FindClass : Nat → List Char → Option Nat)
    (env : Nat) (name : List Char) : Option Nat :=
  if strcmp name ("dalvik/system/BaseDexClassLoader".data) = 0 then none
  else backup_FindClass env name

/-- Function addresses occurring in demo.cpp, as symbolic values: the three
replacement functions defined in the module, libc fopen, the FindClass entry
of a given JNI function table, and the result of `dlsym(handle, sym)`. -/
inductive Addr where
  | fake
  | fake_fopen
  | fake_FindClass
  | fopen
  | findClass (env : Nat)
  | dlsymRes (handle : Nat) (sym : List Char)
  deriving DecidableEq, Repr

/-- The three global backup-pointer variables of demo.cpp, identified by
name: a hook call passes the address of one of them as its third argument. -/
inductive BackupSlot where
  | backup
  | backup_fopen
  | backup_FindClass
  deriving DecidableEq, Repr

/-- One call made by the module through a capability function pointer.
`viaPtr` is the value of the pointer used for the call at call time
(`none` models calling through a null pointer). -/
inductive CapEvent where
  | hook (viaPtr : Option Nat) (target replacement : Addr) (slot : BackupSlot)
  | unhook (viaPtr : Option Nat) (target : Addr)
  deriving DecidableEq, Repr

/-- Whether a capability call is a hook installation (as opposed to an
unhook). -/
def CapEvent.isHook : CapEvent → Bool
  | .hook _ _ _ _ => true
  | .unhook _ _ => false

/-- Embeds the `NativeAPIEntries` struct of native_api.hpp: an API version
and the two capability function pointers, as opaque pointer values. -/
structure NativeAPIEntries where
  version : Nat
  hookFunc : Nat
  unhookFunc : Nat
  deriving DecidableEq, Repr

/-- The module's global mutable state: the single file-scope pointer
variable `hook_func` of demo.cpp (`none` models nullptr). -/
structure ModuleState where
  hook_func : Option Nat
  deriving DecidableEq, Repr

/-- The static initial value of `hook_func` in demo.cpp: nullptr. -/
def initialModuleState : ModuleState :=
  { hook_func := none }

/-- The callback value returned by `native_init` (the address of
`on_library_loaded`); an `Option` of this type models the
`NativeOnModuleLoaded` return, with `none` for a null callback. -/
inductive ModuleCallback where
  | on_library_loaded
  deriving DecidableEq, Repr

/-- Embeds `on_library_loaded` from demo.cpp: given the module state, the
loaded library's name and its dlopen handle, returns the new module state
and the list of capability calls made.  When the name ends with
"libtarget.so" it resolves "target_fun" through the handle and installs one
hook on it with replacement `fake` and backup slot `backup`, calling through
the current `hook_func` value; otherwise it does nothing. -/
def on_library_loaded (s : ModuleState) (name : List Char) (handle : Nat) :
    ModuleState × List CapEvent :=
  if endsWithB ("libtarget.so".data) name then
    (s, [CapEvent.hook s.hook_func (Addr.dlsymRes handle ("target_fun".data))
          Addr.fake BackupSlot.backup])
  else
    (s, [])

/-- The JNI version constant JNI_VERSION_1_6 = 0x00010006. -/
def JNI_VERSION_1_6 : Int := 65542

/-- Embeds `JNI_OnLoad` from demo.cpp: hooks the FindClass entry of the
environment's JNI function table (replacement `fake_FindClass`, backup slot
`backup_FindClass`), calling through the current `hook_func` value, and
returns JNI_VERSION_1_6.  The JNI function table identity is an opaque
`env : Nat`. -/
def JNI_OnLoad (s : ModuleState) (env : Nat) :
    ModuleState × List CapEvent × Int :=
  (s,
   [CapEvent.hook s.hook_func (Addr.findClass env) Addr.fake_FindClass
      BackupSlot.backup_FindClass],
   JNI_VERSION_1_6)

/-- Embeds `native_init` from demo.cpp: stores the received table's
`hookFunc` into the global `hook_func`, then hooks libc `fopen`
(replacement `fake_fopen`, backup slot `backup_fopen`) through the freshly
stored pointer, and returns the `on_library_loaded` callback. -/
def native_init (s : ModuleState) (entries : NativeAPIEntries) :
    ModuleState × List CapEvent × Option ModuleCallback :=
  let s1 : ModuleState := { hook_func := some entries.hookFunc }
  (s1,
   [CapEvent.hook s1.hook_func Addr.fopen Addr.fake_fopen
      BackupSlot.backup_fopen],
   some ModuleCallback.on_library_loaded)

/-- Modelled from the spec: the error kinds of the hooking engine (§7),
which is not part of this repository. -/
inductive PatchError where
  | AlreadyHooked
  | NotHooked
  | UnsupportedInstruction
  | ProtectionDenied
  | InvalidAddress
  deriving DecidableEq, Repr

namespace Engine

/-- Modelled from the spec: the `HookRecord` of §3, one per installed
hook — target address, the exact overwritten bytes, the trampoline address
and the replacement address. -/
structure HookRecord where
  target_address : Nat
  original_bytes : List Nat
  trampoline_address : Nat
  replacement_address : Nat
  deriving DecidableEq, Repr

/-- Modelled from the spec: the engine's process-wide state — byte-addressed
memory, the hook registry, and a bump allocator for trampoline space. -/
structure EngineState where
  mem : Nat → Nat
  registry : List HookRecord
  nextTramp : Nat

/-- Modelled from the spec: the patched region's size (the number of bytes
the redirect branch occupies, a platform constant). -/
def patchSize : Nat := 8

/-- Modelled from the spec: the byte encoding of an unconditional branch to
`replacement`, written over the target's first `patchSize` bytes. -/
def branchBytes (replacement : Nat) : List Nat :=
  (List.range patchSize).map (fun i => replacement / 256 ^ i % 256)

/-- Reads `n` consecutive bytes of `mem` starting at address `a`. -/
def readBytes (mem : Nat → Nat) (a : Nat) : Nat → List Nat
  | 0 => []
  | n + 1 => mem a :: readBytes mem (a + 1) n

/-- Writes the byte list `bs` into `mem` at consecutive addresses starting
at `a`. -/
def writeBytes (mem : Nat → Nat) (a : Nat) (bs : List Nat) : Nat → Nat :=
  fun x => if a ≤ x ∧ x < a + bs.length then bs.getD (x - a) 0 else mem x

/-- Whether the registry holds an active hook for `target`. -/
def hooked (s : EngineState) (target : Nat) : Bool :=
  s.registry.any (fun r => r.target_address == target)

/-- Modelled from the spec: `install` (§4.1) — fails with `AlreadyHooked` on
a target that already has an active hook, leaving the state unchanged;
otherwise saves the target's first `patchSize` bytes in a new record,
overwrites them with a branch to the replacement, allocates a trampoline and
returns its address. -/
def install (s : EngineState) (target replacement : Nat) :
    Except PatchError Nat × EngineState :=
  if hooked s target then
    (Except.error PatchError.AlreadyHooked, s)
  else
    let bs := branchBytes replacement
    let orig := readBytes s.mem target bs.length
    (Except.ok s.nextTramp,
     { mem := writeBytes s.mem target bs,
       registry := ⟨target, orig, s.nextTramp, replacement⟩ :: s.registry,
       nextTramp := s.nextTramp + patchSize })

/-- Modelled from the spec: `remove` (§4.1) — fails with `NotHooked` when no
record exists for the target, leaving the state unchanged; otherwise writes
the record's saved original bytes back over the target and erases the
record. -/
def remove (s : EngineState) (target : Nat) :
    Except PatchError Unit × EngineState :=
  match s.registry.find? (fun r => r.target_address == target) with
  | none => (Except.error PatchError.NotHooked, s)
  | some r =>
    (Except.ok (),
     { mem := writeBytes s.mem target r.original_bytes,
       registry := s.registry.filter (fun q => !(q.target_address == target)),
       nextTramp := s.nextTramp })

theorem readBytes_length (mem : Nat → Nat) (a n : Nat) :
    (readBytes mem a n).length = n := by
  induction n generalizing a with
  | zero => rfl
  | succ k ih => simp [readBytes, ih]

theorem readBytes_getD (mem : Nat → Nat) (a n i : Nat) (h : i < n) :
    (readBytes mem a n).getD i 0 = mem (a + i) := by
  induction n generalizing a i with
  | zero => exact absurd h (Nat.not_lt_zero i)
  | succ k ih =>
    cases i with
    | zero => simp [readBytes]
    | succ j =>
      have hj : j < k := Nat.lt_of_succ_lt_succ h
      simp only [readBytes, List.getD_cons_succ]
      rw [ih (a + 1) j hj]
      congr 1
      omega

theorem writeBytes_restore (mem : Nat → Nat) (a : Nat) (bs : List Nat)
    (x : Nat) :
    writeBytes (writeBytes mem a bs) a (readBytes mem a bs.length) x = mem x := by
  simp only [writeBytes, readBytes_length]
  by_cases hx : a ≤ x ∧ x < a + bs.length
  · rw [if_pos hx, readBytes_getD mem a bs.length (x - a) (by omega)]
    congr 1
    omega
  · rw [if_neg hx, if_neg hx]

theorem filter_keep_of_any_eq_false {α : Type} (p : α → Bool) (l : List α)
    (h : l.any p = false) : l.filter (fun x => !(p x)) = l := by
  induction l with
  | nil => rfl
  | cons a t ih =>
    rw [List.any_cons, Bool.or_eq_false_iff] at h
    rw [List.filter_cons_of_pos (by simp [h.1]), ih h.2]

end Engine

/-- Modelled from the spec: the behavioural view of the engine used by the
testable properties in §8.  Nullary int-returning functions are identified
with their return values: `orig` gives every address its pre-hook behaviour,
and `hooks` maps a hooked target to its replacement, expressed as a function
of the value returned by the backup trampoline call. -/
structure SemState where
  orig : Nat → Int
  hooks : List (Nat × (Int → Int))

namespace SemState

/-- The active hook for `t`, if any. -/
def lookupHook (s : SemState) (t : Nat) : Option (Nat × (Int → Int)) :=
  s.hooks.find? (fun p => p.1 == t)

/-- Modelled from the spec: the result of calling through address `t` — the
replacement (receiving the trampoline's result, i.e. the original
behaviour) when `t` is hooked, the original behaviour otherwise. -/
def callTarget (s : SemState) (t : Nat) : Int :=
  match s.lookupHook t with
  | some p => p.2 (s.orig t)
  | none => s.orig t

/-- Modelled from the spec: behavioural `install` — `AlreadyHooked` on a
hooked target, otherwise records the replacement. -/
def installS (s : SemState) (t : Nat) (r : Int → Int) :
    Except PatchError SemState :=
  if (s.lookupHook t).isSome then Except.error PatchError.AlreadyHooked
  else Except.ok ⟨s.orig, (t, r) :: s.hooks⟩

/-- Modelled from the spec: behavioural `remove` — `NotHooked` on an
unhooked target, otherwise erases the hook, restoring original behaviour. -/
def removeS (s : SemState) (t : Nat) : Except PatchError SemState :=
  if (s.lookupHook t).isSome then
    Except.ok ⟨s.orig, s.hooks.filter (fun p => !(p.1 == t))⟩
  else Except.error PatchError.NotHooked

theorem filter_keep_of_find?_eq_none (t : Nat) (l : List (Nat × (Int → Int)))
    (h : l.find? (fun p => p.1 == t) = none) :
    l.filter (fun p => !(p.1 == t)) = l := by
  induction l with
  | nil => rfl
  | cons a tl ih =>
    rw [List.find?_eq_none] at h
    have ha : (a.1 == t) = false := by
      have := h a (List.mem_cons_self a tl)
      simpa using this
    rw [List.filter_cons_of_pos (by simp [ha])]
    rw [ih (List.find?_eq_none.mpr (fun x hx => h x (List.mem_cons_of_mem a hx)))]

end SemState

/-- Claim C1: `fake_fopen` returns a null result whenever the filename
contains the substring "banned", and for every filename not containing
"banned" it returns exactly the result of the saved original fopen
(`backup_fopen`) on the same filename and mode. -/
theorem c1_fake_fopen_rejects_banned
    (backup_fopen : List Char → List Char → Option Nat)
    (filename mode : List Char) :
    ((∃ l r, filename = l ++ ("banned".data) ++ r) →
      fake_fopen backup_fopen filename mode = none) ∧
    ((¬ ∃ l r, filename = l ++ ("banned".data) ++ r) →
      fake_fopen backup_fopen filename mode = backup_fopen filename mode) := by
  constructor
  · intro hin
    have hb : strstrB ("banned".data) filename = true := (strstrB_iff _ _).mpr hin
    simp [fake_fopen, hb]
  · intro hout
    have hb : strstrB ("banned".data) filename = false := by
      cases hb : strstrB ("banned".data) filename
      · rfl
      · exact absurd ((strstrB_iff _ _).mp hb) hout
    simp [fake_fopen, hb]

/-- Witness for C1: opening "banned.txt" fails, opening "ok.txt" delegates
to the original fopen. -/
theorem c1_fake_fopen_rejects_banned_witness :
    fake_fopen (fun _ _ => some 7) ("banned.txt".data) ("r".data) = none ∧
    fake_fopen (fun _ _ => some 7) ("ok.txt".data) ("r".data) = some 7 :=
  ⟨(c1_fake_fopen_rejects_banned (fun _ _ => some 7) ("banned.txt".data)
      ("r".data)).1 ⟨[], ".txt".data, rfl⟩,
   (c1_fake_fopen_rejects_banned (fun _ _ => some 7) ("ok.txt".data)
      ("r".data)).2
      (fun hex => absurd ((strstrB_iff _ _).mpr hex) (by decide))⟩

/-- Claim C2: `fake` returns the saved original's value plus one, so for an
original returning 41 the hooked target returns 42 after install, and after
remove it returns 41 again. -/
theorem c2_fake_install_remove_roundtrip (s : SemState) (t : Nat)
    (h1 : s.lookupHook t = none) (h2 : s.orig t = 41) :
    ∃ s1, s.installS t fake = Except.ok s1 ∧ s1.callTarget t = 42 ∧
      ∃ s2, s1.removeS t = Except.ok s2 ∧ s2.callTarget t = 41 := by
  have h1l : s.hooks.find? (fun p => p.1 == t) = none := h1
  refine ⟨⟨s.orig, (t, fake) :: s.hooks⟩, ?_, ?_, ?_⟩
  · simp [SemState.installS, SemState.lookupHook, h1l]
  · have hl : SemState.lookupHook ⟨s.orig, (t, fake) :: s.hooks⟩ t =
        some (t, fake) :=
      List.find?_cons_of_pos _ (by simp)
    simp [SemState.callTarget, hl, fake, h2]
  · have hl : SemState.lookupHook ⟨s.orig, (t, fake) :: s.hooks⟩ t =
        some (t, fake) :=
      List.find?_cons_of_pos _ (by simp)
    have hfl : ((t, fake) :: s.hooks).filter (fun p => !(p.1 == t)) = s.hooks := by
      rw [List.filter_cons_of_neg (by simp)]
      exact SemState.filter_keep_of_find?_eq_none t s.hooks h1l
    refine ⟨⟨s.orig, s.hooks⟩, ?_, ?_⟩
    · simp [SemState.removeS, hl, hfl]
    · simp [SemState.callTarget, SemState.lookupHook, h1l, h2]

/-- Witness for C2: a world where address 0 originally returns 41. -/
theorem c2_fake_install_remove_roundtrip_witness :
    ∃ s1, SemState.installS ⟨fun _ => 41, []⟩ 0 fake = Except.ok s1 ∧
      SemState.callTarget s1 0 = 42 ∧
      ∃ s2, SemState.removeS s1 0 = Except.ok s2 ∧
        SemState.callTarget s2 0 = 41 :=
  c2_fake_install_remove_roundtrip ⟨fun _ => 41, []⟩ 0 rfl rfl

/-- Claim C3: every call to `native_init` saves the received table's
`hookFunc` into the global `hook_func` and returns the non-null
`on_library_loaded` callback. -/
theorem c3_native_init_saves_hookFunc (s : ModuleState)
    (entries : NativeAPIEntries) :
    (native_init s entries).1.hook_func = some entries.hookFunc ∧
    (native_init s entries).2.2 = some ModuleCallback.on_library_loaded :=
  ⟨rfl, rfl⟩

/-- Claim C4: `on_library_loaded` installs exactly one hook — target the
symbol "target_fun" resolved through the handle, replacement `fake`, backup
slot `backup` — precisely when the library name ends with "libtarget.so",
and otherwise installs nothing and leaves the module state unchanged. -/
theorem c4_on_library_loaded_targeted (s : ModuleState) (name : List Char)
    (handle : Nat) :
    ((∃ l, name = l ++ ("libtarget.so".data)) →
      on_library_loaded s name handle =
        (s, [CapEvent.hook s.hook_func
              (Addr.dlsymRes handle ("target_fun".data)) Addr.fake
              BackupSlot.backup])) ∧
    ((¬ ∃ l, name = l ++ ("libtarget.so".data)) →
      on_library_loaded s name handle = (s, [])) := by
  constructor
  · intro hin
    have he : endsWithB ("libtarget.so".data) name = true :=
      (endsWithB_iff _ _).mpr hin
    simp [on_library_loaded, he]
  · intro hout
    have he : endsWithB ("libtarget.so".data) name = false := by
      cases hb : endsWithB ("libtarget.so".data) name
      · rfl
      · exact absurd ((endsWithB_iff _ _).mp hb) hout
    simp [on_library_loaded, he]

/-- Witness for C4: "/data/libtarget.so" triggers the hook,
"liball.so" does not. -/
theorem c4_on_library_loaded_targeted_witness :
    on_library_loaded initialModuleState ("/data/libtarget.so".data) 7 =
      (initialModuleState,
       [CapEvent.hook none (Addr.dlsymRes 7 ("target_fun".data)) Addr.fake
          BackupSlot.backup]) ∧
    on_library_loaded initialModuleState ("liball.so".data) 7 =
      (initialModuleState, []) :=
  ⟨(c4_on_library_loaded_targeted initialModuleState
      ("/data/libtarget.so".data) 7).1 ⟨"/data/".data, rfl⟩,
   (c4_on_library_loaded_targeted initialModuleState ("liball.so".data) 7).2
      (fun hex => absurd ((endsWithB_iff _ _).mpr hex) (by decide))⟩

/-- Claim C5: the module performs exactly three hook installations — fopen
with `fake_fopen` in `native_init`, the JNI FindClass entry with
`fake_FindClass` in `JNI_OnLoad`, and target_fun with `fake` in
`on_library_loaded` (when the name matches, else none); no entry point makes
any other call through the hook function pointer. -/
theorem c5_exactly_three_hook_calls (s1 s2 s3 : ModuleState)
    (entries : NativeAPIEntries) (env handle : Nat) (name : List Char) :
    (native_init s1 entries).2.1 =
      [CapEvent.hook (some entries.hookFunc) Addr.fopen Addr.fake_fopen
        BackupSlot.backup_fopen] ∧
    (JNI_OnLoad s2 env).2.1 =
      [CapEvent.hook s2.hook_func (Addr.findClass env) Addr.fake_FindClass
        BackupSlot.backup_FindClass] ∧
    ((on_library_loaded s3 name handle).2 = [] ∨
      (on_library_loaded s3 name handle).2 =
        [CapEvent.hook s3.hook_func
          (Addr.dlsymRes handle ("target_fun".data)) Addr.fake
          BackupSlot.backup]) := by
  refine ⟨rfl, rfl, ?_⟩
  by_cases h : endsWithB ("libtarget.so".data) name = true
  · exact Or.inr (by simp [on_library_loaded, h])
  · exact Or.inl (by simp [on_library_loaded, h])

/-- Claim C6: the module never calls the unhook capability — every
capability call of every entry point is a hook installation, and
`native_init` is insensitive to the table's `unhookFunc` member (it is
neither stored nor invoked). -/
theorem c6_unhook_never_used (s1 s2 s3 : ModuleState) (v hf u u2 : Nat)
    (env handle : Nat) (name : List Char) :
    (native_init s1 ⟨v, hf, u⟩).2.1.all CapEvent.isHook = true ∧
    (JNI_OnLoad s2 env).2.1.all CapEvent.isHook = true ∧
    (on_library_loaded s3 name handle).2.all CapEvent.isHook = true ∧
    native_init s1 ⟨v, hf, u⟩ = native_init s1 ⟨v, hf, u2⟩ := by
  refine ⟨rfl, rfl, ?_, rfl⟩
  by_cases h : endsWithB ("libtarget.so".data) name = true
  · simp [on_library_loaded, h, CapEvent.isHook]
  · simp [on_library_loaded, h]

/-- Claim C7: installing on an already-hooked target fails with
`AlreadyHooked` and leaves the engine state — registry record and patched
memory — unchanged. -/
theorem c7_install_already_hooked (s : Engine.EngineState)
    (target replacement : Nat) (h : Engine.hooked s target = true) :
    Engine.install s target replacement =
      (Except.error PatchError.AlreadyHooked, s) := by
  simp [Engine.install, h]

/-- Witness for C7: a state already holding a hook record for target 5. -/
theorem c7_install_already_hooked_witness :
    Engine.install ⟨fun _ => 0, [⟨5, [1, 2], 100, 9⟩], 200⟩ 5 11 =
      (Except.error PatchError.AlreadyHooked,
       ⟨fun _ => 0, [⟨5, [1, 2], 100, 9⟩], 200⟩) :=
  c7_install_already_hooked ⟨fun _ => 0, [⟨5, [1, 2], 100, 9⟩], 200⟩ 5 11 rfl

/-- Claim C8: install followed by remove restores the bytes at the target to
exactly their pre-install values, byte for byte, and the registry to its
pre-install contents, so any observation of the target sees the pre-hook
behaviour. -/
theorem c8_install_remove_restores (s : Engine.EngineState)
    (target replacement : Nat) (h : Engine.hooked s target = false) :
    ∃ tramp s1, Engine.install s target replacement = (Except.ok tramp, s1) ∧
      ∃ s2, Engine.remove s1 target = (Except.ok (), s2) ∧
        (∀ a, s2.mem a = s.mem a) ∧ s2.registry = s.registry := by
  refine ⟨s.nextTramp,
    ⟨Engine.writeBytes s.mem target (Engine.branchBytes replacement),
     ⟨target,
      Engine.readBytes s.mem target (Engine.branchBytes replacement).length,
      s.nextTramp, replacement⟩ :: s.registry,
     s.nextTramp + Engine.patchSize⟩, ?_, ?_⟩
  · simp [Engine.install, h]
  · have hfind :
        ((⟨target,
           Engine.readBytes s.mem target
             (Engine.branchBytes replacement).length,
           s.nextTramp, replacement⟩ : Engine.HookRecord)
            :: s.registry).find?
          (fun r => r.target_address == target) =
          some ⟨target,
            Engine.readBytes s.mem target
              (Engine.branchBytes replacement).length,
            s.nextTramp, replacement⟩ :=
      List.find?_cons_of_pos _ (by simp)
    refine ⟨⟨Engine.writeBytes
        (Engine.writeBytes s.mem target (Engine.branchBytes replacement))
        target
        (Engine.readBytes s.mem target (Engine.branchBytes replacement).length),
      s.registry.filter (fun q => !(q.target_address == target)),
      s.nextTramp + Engine.patchSize⟩, ?_, ?_, ?_⟩
    · simp only [Engine.remove, hfind]
      rw [List.filter_cons_of_neg (by simp)]
    · intro a
      exact Engine.writeBytes_restore s.mem target
        (Engine.branchBytes replacement) a
    · exact Engine.filter_keep_of_any_eq_false _ s.registry h

/-- Witness for C8: install then remove on target 3 of an identity memory
with an empty registry. -/
theorem c8_install_remove_restores_witness :
    ∃ tramp s1, Engine.install ⟨fun a => a, [], 0⟩ 3 10 =
        (Except.ok tramp, s1) ∧
      ∃ s2, Engine.remove s1 3 = (Except.ok (), s2) ∧
        (∀ a, s2.mem a = a) ∧ s2.registry = [] :=
  c8_install_remove_restores ⟨fun a => a, [], 0⟩ 3 10 rfl

/-- Claim C9: `fake_FindClass` returns a null class exactly when the class
name equals "dalvik/system/BaseDexClassLoader" byte for byte (given an
original FindClass that never returns null), and for every other name it
returns exactly the saved original's result. -/
theorem c9_fake_FindClass_blocks_exact
    (backup_FindClass : Nat → List Char → Option Nat) (env : Nat)
    (name : List Char)
    (h : ∀ e n, (backup_FindClass e n).isSome = true) :
    (fake_FindClass backup_FindClass env name = none ↔
      name = ("dalvik/system/BaseDexClassLoader".data)) ∧
    (name ≠ ("dalvik/system/BaseDexClassLoader".data) →
      fake_FindClass backup_FindClass env name = backup_FindClass env name) := by
  have hdel : name ≠ ("dalvik/system/BaseDexClassLoader".data) →
      fake_FindClass backup_FindClass env name = backup_FindClass env name := by
    intro hne
    have hz : strcmp name ("dalvik/system/BaseDexClassLoader".data) ≠ 0 :=
      fun hzz => hne ((strcmp_eq_zero_iff _ _).mp hzz)
    simp [fake_FindClass, hz]
  refine ⟨⟨?_, ?_⟩, hdel⟩
  · intro hn
    by_contra hne
    have hs := h env name
    rw [hdel hne] at hn
    rw [hn] at hs
    simp at hs
  · intro hn
    have hz : strcmp name ("dalvik/system/BaseDexClassLoader".data) = 0 :=
      (strcmp_eq_zero_iff _ _).mpr hn
    simp [fake_FindClass, hz]

/-- Witness for C9: a never-null original FindClass and the class name
"java/lang/String". -/
theorem c9_fake_FindClass_blocks_exact_witness :
    (fake_FindClass (fun _ _ => some 3) 0 ("java/lang/String".data) = none ↔
      ("java/lang/String".data) = ("dalvik/system/BaseDexClassLoader".data)) ∧
    (("java/lang/String".data) ≠ ("dalvik/system/BaseDexClassLoader".data) →
      fake_FindClass (fun _ _ => some 3) 0 ("java/lang/String".data) = some 3) :=
  c9_fake_FindClass_blocks_exact (fun _ _ => some 3) 0
    ("java/lang/String".data) (fun _ _ => rfl)

/-- Claim C10: `hook_func` is null at module load and is written only by
`native_init`; `JNI_OnLoad` and `on_library_loaded` never write it and call
through its current value with no null guard, so invoking either from the
initial state calls through a null pointer. -/
theorem c10_hook_func_lifecycle :
    initialModuleState.hook_func = none ∧
    (∀ s entries, (native_init s entries).1.hook_func = some entries.hookFunc) ∧
    (∀ s env, (JNI_OnLoad s env).1 = s) ∧
    (∀ s name handle, (on_library_loaded s name handle).1 = s) ∧
    (∀ env, (JNI_OnLoad initialModuleState env).2.1 =
      [CapEvent.hook none (Addr.findClass env) Addr.fake_FindClass
        BackupSlot.backup_FindClass]) ∧
    (∀ handle,
      (on_library_loaded initialModuleState ("libtarget.so".data) handle).2 =
        [CapEvent.hook none (Addr.dlsymRes handle ("target_fun".data))
          Addr.fake BackupSlot.backup]) := by
  refine ⟨rfl, fun s entries => rfl, fun s env => rfl, ?_, fun env => rfl,
    fun handle => rfl⟩
  intro s name handle
  by_cases h : endsWithB ("libtarget.so".data) name = true
  · simp [on_library_loaded, h]
  · simp [on_library_loaded, h]
